import Mathlib

/-!
# Verification of the libgit2 tag subsystem (`src/tag.c`)

Shallow embedding of the tag-object subsystem: the tag parser
(`tag_parse`), the tag serializer (`write_tag_annotation`), the creation
entry points (`git_tag_create__internal`, `git_tag_create_frombuffer`),
deletion (`git_tag_delete`) and enumeration (`git_tag_foreach`,
`git_tag_list_match`).

Buffers are `List Char`.  Object ids are represented by their canonical
lowercase 40-character hex rendering (a bijective image of the binary
`git_oid`).  Collaborators that live outside this file's source (the
object database, the reference store, the signature sub-parser, oid
parsing/printing, and glob matching) are modelled from the spec and are
marked as such in their doc comments.
-/

namespace Tag

/-! ## Basic list helpers -/

theorem take_len_append (p s : List Char) : (p ++ s).take p.length = p := by
  induction p with
  | nil => rfl
  | cons c t ih => simp [List.take, ih]

theorem drop_len_append (p s : List Char) : (p ++ s).drop p.length = s := by
  induction p with
  | nil => rfl
  | cons c t ih => simp [List.drop, ih]

/-! ## Characters and hex digits -/

def hexDigitsDec : List Char := ['0', '1', '2', '3', '4', '5', '6', '7', '8', '9']

def hexLettersLow : List Char := ['a', 'b', 'c', 'd', 'e', 'f']

def lowerHexChars : List Char := hexDigitsDec ++ hexLettersLow

def upperHexChars : List Char := ['A', 'B', 'C', 'D', 'E', 'F']

def isHexDigit (c : Char) : Bool :=
  c ∈ lowerHexChars || c ∈ upperHexChars

/-- Canonicalize an upper-case hex digit to lower case (the binary
`git_oid` does not remember the case of the hex spelling it was parsed
from; rendering it back always produces lower case). -/
def hexLower (c : Char) : Char :=
  match c with
  | 'A' => 'a' | 'B' => 'b' | 'C' => 'c'
  | 'D' => 'd' | 'E' => 'e' | 'F' => 'f'
  | c => c

def isLowerHex (c : Char) : Bool :=
  c ∈ lowerHexChars

/-- A valid object id in this model: the canonical lowercase
40-character hex rendering of a binary oid. -/
def ValidOid (h : List Char) : Prop :=
  h.length = 40 ∧ h.all isLowerHex = true

instance (h : List Char) : Decidable (ValidOid h) := by
  unfold ValidOid; infer_instance

theorem hexLower_of_lower {c : Char} (h : isLowerHex c = true) : hexLower c = c := by
  unfold isLowerHex lowerHexChars hexDigitsDec hexLettersLow at h
  simp only [List.mem_append, List.mem_cons, List.not_mem_nil, or_false,
    decide_eq_true_eq] at h
  rcases h with (h | h | h | h | h | h | h | h | h | h) | (h | h | h | h | h | h) <;>
    subst h <;> rfl

theorem map_hexLower_valid {h : List Char} (hv : ValidOid h) : h.map hexLower = h := by
  rcases hv with ⟨-, hall⟩
  induction h with
  | nil => rfl
  | cons c t ih =>
    simp only [List.all_cons, Bool.and_eq_true_iff] at hall
    simp [List.map, hexLower_of_lower hall.1, ih hall.2]

/-! ## Field-marker literals (from `tag.c` and the wire format) -/

def objectHdr : List Char := ['o', 'b', 'j', 'e', 'c', 't', ' ']
def typeHdr : List Char := ['t', 'y', 'p', 'e', ' ']
def tagHdr : List Char := ['t', 'a', 'g', ' ']
def taggerHdr : List Char := ['t', 'a', 'g', 'g', 'e', 'r', ' ']
def commitNL : List Char := ['c', 'o', 'm', 'm', 'i', 't', '\n']
def treeNL : List Char := ['t', 'r', 'e', 'e', '\n']
def blobNL : List Char := ['b', 'l', 'o', 'b', '\n']
def tagNL : List Char := ['t', 'a', 'g', '\n']
def refsTagsDir : List Char := ['r', 'e', 'f', 's', '/', 't', 'a', 'g', 's', '/']

/-! ## The oid sub-parser -/

/-- Modelled from the spec: `object <hex-id>` is a fixed-length hex
identifier matching the store's id width (40 hex characters), preceded
by a header and terminated by a newline (`git_oid__parse`, which lives
outside this repository slice).  It checks that enough bytes remain,
that the header matches, that the byte after the 40 hex digits is a
newline, and that the 40 digits are hex; it stores the binary oid —
here, its canonical lowercase hex rendering — and advances the cursor
past the terminating newline. -/
def git_oid__parse (hdr : List Char) (s : List Char) : Option (List Char × List Char) :=
  if hdr.length + 41 ≤ s.length then
    if s.take hdr.length = hdr then
      if s[hdr.length + 40]? = some '\n' then
        let hex := (s.drop hdr.length).take 40
        if hex.all isHexDigit then
          some (hex.map hexLower, s.drop (hdr.length + 41))
        else none
      else none
    else none
  else none

theorem lowerHex_isHex {c : Char} (h : isLowerHex c = true) : isHexDigit c = true := by
  unfold isLowerHex at h
  unfold isHexDigit
  exact Bool.or_eq_true_iff.2 (Or.inl h)

/-- Parsing the serializer's `<hdr><40 lowercase hex>\n` prefix
recovers the oid and the rest of the buffer. -/
theorem git_oid__parse_roundtrip (hdr oid rest : List Char) (hv : ValidOid oid) :
    git_oid__parse hdr (hdr ++ oid ++ '\n' :: rest) = some (oid, rest) := by
  rcases hv with ⟨hlen, hall⟩
  unfold git_oid__parse
  have hlen1 : hdr.length + 41 ≤ (hdr ++ oid ++ '\n' :: rest).length := by
    simp [List.length_append, hlen]
    omega
  rw [if_pos hlen1]
  have htake : (hdr ++ oid ++ '\n' :: rest).take hdr.length = hdr := by
    rw [List.append_assoc]
    exact take_len_append hdr _
  rw [if_pos htake]
  have hdrop : (hdr ++ oid ++ '\n' :: rest).drop hdr.length = oid ++ '\n' :: rest := by
    rw [List.append_assoc]
    exact drop_len_append hdr _
  have hget : (hdr ++ oid ++ '\n' :: rest)[hdr.length + 40]? = some '\n' := by
    rw [List.append_assoc]
    rw [List.getElem?_append_right (by omega)]
    have : hdr.length + 40 - hdr.length = 40 := by omega
    rw [this]
    rw [List.getElem?_append_right (by omega)]
    rw [hlen]
    simp
  rw [if_pos hget, hdrop]
  have htake40 : (oid ++ '\n' :: rest).take 40 = oid := by
    rw [← hlen]; exact take_len_append oid _
  rw [htake40]
  have hallhex : oid.all isHexDigit = true := by
    rw [List.all_eq_true] at hall ⊢
    intro c hc
    exact lowerHex_isHex (hall c hc)
  rw [if_pos hallhex]
  rw [map_hexLower_valid ⟨hlen, hall⟩]
  have hdropAll : (hdr ++ oid ++ '\n' :: rest).drop (hdr.length + 41) = rest := by
    rw [List.append_assoc]
    rw [List.drop_append_eq_append_drop]
    rw [List.drop_of_length_le (by omega)]
    have : hdr.length + 41 - hdr.length = 41 := by omega
    rw [this, List.nil_append]
    rw [List.drop_append_eq_append_drop]
    rw [List.drop_of_length_le (by omega)]
    rw [hlen]
    simp
  rw [hdropAll]

/-! ## The signature sub-parser -/

/-- Find the first newline: `memchr(buffer, '\n', len)`.  Returns the
bytes before the newline and the bytes after it. -/
def breakNL : List Char → Option (List Char × List Char)
  | [] => none
  | c :: t =>
    if c = '\n' then some ([], t)
    else
      match breakNL t with
      | none => none
      | some (a, b) => some (c :: a, b)

theorem breakNL_append {name : List Char} (rest : List Char) (h : '\n' ∉ name) :
    breakNL (name ++ '\n' :: rest) = some (name, rest) := by
  induction name with
  | nil => simp [breakNL]
  | cons c t ih =>
    simp only [List.mem_cons, not_or] at h
    simp only [List.cons_append, breakNL, if_neg (Ne.symm h.1), List.append_eq]
    rw [ih h.2]

/-- Modelled from the spec: the signature sub-parser is an opaque
collaborator with grammar `<hdr><name> <email> <timestamp> <offset><ender>`
(`git_signature__parse` with ender `'\n'`, outside this repository
slice).  The model checks the header and consumes up to the terminating
newline, keeping the payload opaque; it fails when the header does not
match or no newline terminates the line. -/
def git_signature__parse (hdr : List Char) (s : List Char) : Option (List Char × List Char) :=
  if s.take hdr.length = hdr then breakNL (s.drop hdr.length)
  else none

/-! ## The tag parser (`tag_parse`, tag.c lines 68-149) -/

/-- The parse failures of `tag_parse`, one constructor per distinct
`tag_error` reason string (plus the bare `-1` of a failed signature
parse). -/
inductive TagErr where
  | objectFieldInvalid
  | objectTooShort
  | typeFieldNotFound
  | invalidObjectType
  | tagFieldNotFound
  | taggerInvalid
  | noNewLineBeforeMessage
deriving DecidableEq, Repr

/-- The `git_tag` record populated by the parser.  `type` follows
`git_otype` numbering: commit 1, tree 2, blob 3, tag 4, `GIT_OBJ_BAD`
is `-1`.  Defaults are the zeroed state of `git_tag_create_frombuffer`'s
`memset`. -/
structure GitTagRec where
  target : List Char := []
  type : Int := 0
  tag_name : List Char := []
  tagger : Option (List Char) := none
  message : Option (List Char) := none
deriving DecidableEq, Repr

/-- The `tag_types` table (tag.c lines 70-72), indices 1..4. -/
def tag_types : List (List Char) := [commitNL, treeNL, blobNL, tagNL]

/-- The typename loop (tag.c lines 90-101): for each candidate, first
fail with `Object too short` when `buffer + type_length >= buffer_end`,
then `memcmp` the candidate (`isPrefixOf`, which the preceding bound
check makes equivalent to the C's fixed-length compare); falling out of
the table leaves `GIT_OBJ_BAD`, reported as `Invalid object type`. -/
def matchTypeGo : Int → List (List Char) → List Char → Except TagErr (Int × List Char)
  | _, [], _ => .error .invalidObjectType
  | i, t :: ts, s =>
    if s.length ≤ t.length then .error .objectTooShort
    else if t.isPrefixOf s then .ok (i, s.drop t.length)
    else matchTypeGo (i + 1) ts s

def matchType (s : List Char) : Except TagErr (Int × List Char) :=
  matchTypeGo 1 tag_types s

/-- Message stage (tag.c lines 135-146): `message` is set to null; when
bytes remain, the first must be a newline, and everything after it is
the message. -/
def tag_parse_msg (tag0 : GitTagRec) (b : List Char) : GitTagRec × Option TagErr :=
  let tag := { tag0 with message := none }
  match b with
  | [] => (tag, none)
  | c :: rest =>
    if c ≠ '\n' then (tag, some .noNewLineBeforeMessage)
    else ({ tag with message := some rest }, none)

/-- Tagger + message stages (tag.c lines 127-148): `tagger` is set to
null; when a byte remains and it is not a newline, a `tagger ` signature
line is parsed, failure aborting the parse with the earlier fields still
in place. -/
def tag_parse_tail (tag0 : GitTagRec) (b : List Char) : GitTagRec × Option TagErr :=
  let tag := { tag0 with tagger := none }
  if b ≠ [] ∧ b.head? ≠ some '\n' then
    match git_signature__parse taggerHdr b with
    | none => (tag, some .taggerInvalid)
    | some (sig, rest) => tag_parse_msg { tag with tagger := some sig } rest
  else tag_parse_msg tag b

/-- `tag_parse` (tag.c lines 68-149), writing fields into the record as
the C writes into the caller's struct; the returned record reflects all
assignments made before a failure. -/
def tag_parse (tag0 : GitTagRec) (buffer : List Char) : GitTagRec × Option TagErr :=
  match git_oid__parse objectHdr buffer with
  | none => (tag0, some .objectFieldInvalid)
  | some (oid, b1) =>
    let tag := { tag0 with target := oid }
    if b1.length ≤ 5 then (tag, some .objectTooShort)
    else if b1.take 5 = typeHdr then
      let b2 := b1.drop 5
      let tag := { tag with type := -1 }
      match matchType b2 with
      | .error e => (tag, some e)
      | .ok (ty, b3) =>
        let tag := { tag with type := ty }
        if b3.length ≤ 4 then (tag, some .objectTooShort)
        else if b3.take 4 = tagHdr then
          let b4 := b3.drop 4
          match breakNL b4 with
          | none => (tag, some .objectTooShort)
          | some (name, b5) => tag_parse_tail { tag with tag_name := name } b5
        else (tag, some .tagFieldNotFound)
    else (tag, some .typeFieldNotFound)

/-! ## The tag serializer (`write_tag_annotation`, tag.c lines 195-228) -/

/-- `git_object_type2string` for the four storable kinds (anything else
renders as the empty string). -/
def git_object_type2string (t : Int) : List Char :=
  if t = 1 then ['c', 'o', 'm', 'm', 'i', 't']
  else if t = 2 then ['t', 'r', 'e', 'e']
  else if t = 3 then ['b', 'l', 'o', 'b']
  else if t = 4 then ['t', 'a', 'g']
  else []

/-- The annotation buffer built by `write_tag_annotation` (tag.c lines
206-212): oid line, type line, tag line, tagger line, blank separator,
message.  The oid line and the tagger line delegate to
`git_oid__writebuf` and `git_signature__writebuf`, modelled from the
spec as `object <40 lowercase hex>\n` and `tagger <payload>\n`. -/
def serializeTag (oid : List Char) (ty : Int) (name sig msg : List Char) : List Char :=
  objectHdr ++ oid ++ ['\n'] ++
  typeHdr ++ git_object_type2string ty ++ ['\n'] ++
  tagHdr ++ name ++ ['\n'] ++
  taggerHdr ++ sig ++ ['\n'] ++
  ['\n'] ++ msg

/-! ## Stage lemmas for serialized buffers -/

theorem isPrefixOf_append (p s : List Char) : p.isPrefixOf (p ++ s) = true := by
  induction p with
  | nil => simp [List.isPrefixOf]
  | cons a t ih => simp [List.isPrefixOf, ih]

theorem matchTypeGo_head (i : Int) (t : List Char) (ts : List (List Char))
    (rest : List Char) (h : rest ≠ []) :
    matchTypeGo i (t :: ts) (t ++ rest) = .ok (i, rest) := by
  have hlen : ¬((t ++ rest).length ≤ t.length) := by
    cases rest with
    | nil => exact absurd rfl h
    | cons c cs => simp [List.length_append]
  unfold matchTypeGo
  rw [if_neg hlen, if_pos (isPrefixOf_append t rest), drop_len_append]

theorem matchTypeGo_skip (i : Int) (t : List Char) (ts : List (List Char))
    (s : List Char) (hlen : ¬(s.length ≤ t.length)) (hne : t.isPrefixOf s = false) :
    matchTypeGo i (t :: ts) s = matchTypeGo (i + 1) ts s := by
  conv_lhs => rw [matchTypeGo]
  rw [if_neg hlen, if_neg (by simp [hne])]

/-- The typename loop accepts exactly the serializer's `<typename>\n`
prefix, yielding the matching `git_otype`, provided at least four bytes
follow (the shortest buffer the loop's bound checks allow here). -/
theorem matchType_serialized (ty : Int) (r : List Char)
    (hty : ty = 1 ∨ ty = 2 ∨ ty = 3 ∨ ty = 4) (h : 3 < r.length) :
    matchType (git_object_type2string ty ++ '\n' :: r) = .ok (ty, r) := by
  have hne : r ≠ [] := by intro he; rw [he] at h; simp at h
  have hlen : ∀ (x : List Char), (x ++ r).length = x.length + r.length := fun x =>
    List.length_append x r
  rcases hty with h1 | h1 | h1 | h1 <;> subst h1
  · show matchTypeGo 1 (commitNL :: [treeNL, blobNL, tagNL]) (commitNL ++ r) = .ok (1, r)
    exact matchTypeGo_head 1 commitNL _ r hne
  · show matchTypeGo 1 (commitNL :: [treeNL, blobNL, tagNL]) (treeNL ++ r) = .ok (2, r)
    rw [matchTypeGo_skip 1 commitNL [treeNL, blobNL, tagNL] (treeNL ++ r)
      (by rw [hlen]; simp only [treeNL, commitNL, List.length_cons, List.length_nil]; omega) rfl]
    exact matchTypeGo_head 2 treeNL _ r hne
  · show matchTypeGo 1 (commitNL :: [treeNL, blobNL, tagNL]) (blobNL ++ r) = .ok (3, r)
    rw [matchTypeGo_skip 1 commitNL [treeNL, blobNL, tagNL] (blobNL ++ r)
      (by rw [hlen]; simp only [blobNL, commitNL, List.length_cons, List.length_nil]; omega) rfl]
    rw [matchTypeGo_skip (1 + 1) treeNL [blobNL, tagNL] (blobNL ++ r)
      (by rw [hlen]; simp only [blobNL, treeNL, List.length_cons, List.length_nil]; omega) rfl]
    exact matchTypeGo_head 3 blobNL _ r hne
  · show matchTypeGo 1 (commitNL :: [treeNL, blobNL, tagNL]) (tagNL ++ r) = .ok (4, r)
    rw [matchTypeGo_skip 1 commitNL [treeNL, blobNL, tagNL] (tagNL ++ r)
      (by rw [hlen]; simp only [tagNL, commitNL, List.length_cons, List.length_nil]; omega) rfl]
    rw [matchTypeGo_skip (1 + 1) treeNL [blobNL, tagNL] (tagNL ++ r)
      (by rw [hlen]; simp only [tagNL, treeNL, List.length_cons, List.length_nil]; omega) rfl]
    rw [matchTypeGo_skip (1 + 1 + 1) blobNL [tagNL] (tagNL ++ r)
      (by rw [hlen]; simp only [tagNL, blobNL, List.length_cons, List.length_nil]; omega) rfl]
    exact matchTypeGo_head 4 tagNL _ r hne

/-- Parsing a buffer with serialized object, type and tag-name lines
reaches the tagger/message stage with exactly those fields recorded. -/
theorem tag_parse_serialized_header (tag0 : GitTagRec) (oid : List Char) (ty : Int)
    (name rest : List Char) (hv : ValidOid oid)
    (hty : ty = 1 ∨ ty = 2 ∨ ty = 3 ∨ ty = 4) (hname : '\n' ∉ name) :
    tag_parse tag0 (objectHdr ++ oid ++ ['\n'] ++ typeHdr ++ git_object_type2string ty ++
        ['\n'] ++ tagHdr ++ name ++ ['\n'] ++ rest)
      = tag_parse_tail { tag0 with target := oid, type := ty, tag_name := name } rest := by
  have hbuf : objectHdr ++ oid ++ ['\n'] ++ typeHdr ++ git_object_type2string ty ++
      ['\n'] ++ tagHdr ++ name ++ ['\n'] ++ rest
      = objectHdr ++ oid ++ '\n' :: (typeHdr ++ (git_object_type2string ty ++
        '\n' :: (tagHdr ++ (name ++ '\n' :: rest)))) := by
    simp [List.append_assoc]
  rw [hbuf]
  unfold tag_parse
  rw [git_oid__parse_roundtrip objectHdr oid _ hv]
  simp only
  set M := git_object_type2string ty ++ '\n' :: (tagHdr ++ (name ++ '\n' :: rest)) with hM
  have hlen5 : ¬((typeHdr ++ M).length ≤ 5) := by
    simp only [hM, typeHdr, List.length_append, List.length_cons, List.length_nil]
    omega
  rw [if_neg hlen5]
  have htk5 : (typeHdr ++ M).take 5 = typeHdr := take_len_append typeHdr M
  rw [if_pos htk5]
  have hdr5 : (typeHdr ++ M).drop 5 = M := drop_len_append typeHdr M
  rw [hdr5, hM]
  rw [matchType_serialized ty _ hty
    (by simp only [tagHdr, List.length_append, List.length_cons, List.length_nil]; omega)]
  simp only
  set B3 := tagHdr ++ (name ++ '\n' :: rest) with hB3
  have hlen4 : ¬(B3.length ≤ 4) := by
    simp only [hB3, tagHdr, List.length_append, List.length_cons, List.length_nil]
    omega
  rw [if_neg hlen4]
  have htk4 : B3.take 4 = tagHdr := take_len_append tagHdr _
  rw [if_pos htk4]
  have hdr4 : B3.drop 4 = name ++ '\n' :: rest := drop_len_append tagHdr _
  rw [hdr4, breakNL_append rest hname]

/-- A serialized `tagger ` line hands the remainder to the message
stage with the tagger recorded. -/
theorem tag_parse_tail_sig (tag : GitTagRec) (sig rest : List Char) (hsig : '\n' ∉ sig) :
    tag_parse_tail tag (taggerHdr ++ sig ++ '\n' :: rest)
      = tag_parse_msg { tag with tagger := some sig } rest := by
  have hbuf : taggerHdr ++ sig ++ '\n' :: rest
      = taggerHdr ++ (sig ++ '\n' :: rest) := by
    simp [List.append_assoc]
  rw [hbuf]
  unfold tag_parse_tail
  rw [if_pos ?hcond]
  case hcond =>
    constructor
    · simp [taggerHdr]
    · simp [taggerHdr]
  unfold git_signature__parse
  rw [if_pos (take_len_append taggerHdr _), drop_len_append, breakNL_append rest hsig]

/-! ## Claim C1: round-trip -/

/-- C1: for every well-formed field set — a valid target id, a type in
{commit, tree, blob, tag}, a non-empty newline-free name, a tagger and
a message — parsing the buffer produced by `write_tag_annotation`'s
serializer yields exactly the original fields, with the message
present. -/
theorem C1_round_trip (oid : List Char) (ty : Int) (name sig msg : List Char)
    (hv : ValidOid oid) (hty : ty = 1 ∨ ty = 2 ∨ ty = 3 ∨ ty = 4)
    (hname : name ≠ []) (hnameNL : '\n' ∉ name) (hsig : '\n' ∉ sig) :
    tag_parse {} (serializeTag oid ty name sig msg)
      = ({ target := oid, type := ty, tag_name := name,
           tagger := some sig, message := some msg }, none) := by
  have hbuf : serializeTag oid ty name sig msg
      = objectHdr ++ oid ++ ['\n'] ++ typeHdr ++ git_object_type2string ty ++
        ['\n'] ++ tagHdr ++ name ++ ['\n'] ++ (taggerHdr ++ sig ++ '\n' :: '\n' :: msg) := by
    simp [serializeTag, List.append_assoc]
  rw [hbuf, tag_parse_serialized_header {} oid ty name _ hv hty hnameNL,
    tag_parse_tail_sig _ sig _ hsig]
  simp [tag_parse_msg]

theorem C1_round_trip_witness :
    ValidOid (List.replicate 40 '0') ∧
    tag_parse {} (serializeTag (List.replicate 40 '0') 1 ['v', '1'] ['A'] ['h', 'i'])
      = ({ target := List.replicate 40 '0', type := 1, tag_name := ['v', '1'],
           tagger := some ['A'], message := some ['h', 'i'] }, none) :=
  ⟨by decide,
   C1_round_trip (List.replicate 40 '0') 1 ['v', '1'] ['A'] ['h', 'i']
     (by decide) (Or.inl rfl) (by decide) (by decide) (by decide)⟩

/-! ## Claim C7: message presence distinction -/

/-- C7: when the object, type, tag-name and tagger lines parse, a
buffer ending right after the tagger line's newline parses with the
message absent, while a buffer with exactly one further newline (the
blank separator) and nothing after it parses with the message present
and empty — two distinguishable outcomes. -/
theorem C7_message_presence (oid : List Char) (ty : Int) (name sig : List Char)
    (hv : ValidOid oid) (hty : ty = 1 ∨ ty = 2 ∨ ty = 3 ∨ ty = 4)
    (hnameNL : '\n' ∉ name) (hsig : '\n' ∉ sig) :
    tag_parse {} (objectHdr ++ oid ++ ['\n'] ++ typeHdr ++ git_object_type2string ty ++
        ['\n'] ++ tagHdr ++ name ++ ['\n'] ++ (taggerHdr ++ sig ++ '\n' :: []))
      = ({ target := oid, type := ty, tag_name := name,
           tagger := some sig, message := none }, none)
    ∧ tag_parse {} (objectHdr ++ oid ++ ['\n'] ++ typeHdr ++ git_object_type2string ty ++
        ['\n'] ++ tagHdr ++ name ++ ['\n'] ++ (taggerHdr ++ sig ++ '\n' :: ['\n']))
      = ({ target := oid, type := ty, tag_name := name,
           tagger := some sig, message := some [] }, none) := by
  constructor
  · rw [tag_parse_serialized_header {} oid ty name _ hv hty hnameNL,
      tag_parse_tail_sig _ sig _ hsig]
    simp [tag_parse_msg]
  · rw [tag_parse_serialized_header {} oid ty name _ hv hty hnameNL,
      tag_parse_tail_sig _ sig _ hsig]
    simp [tag_parse_msg]

theorem C7_message_presence_witness :
    ValidOid (List.replicate 40 'a') ∧
    tag_parse {} (objectHdr ++ List.replicate 40 'a' ++ ['\n'] ++ typeHdr ++
        git_object_type2string 1 ++ ['\n'] ++ tagHdr ++ ['v'] ++ ['\n'] ++
        (taggerHdr ++ ['A'] ++ '\n' :: []))
      = ({ target := List.replicate 40 'a', type := 1, tag_name := ['v'],
           tagger := some ['A'], message := none }, none) :=
  ⟨by decide,
   (C7_message_presence (List.replicate 40 'a') 1 ['v'] ['A']
     (by decide) (Or.inl rfl) (by decide) (by decide)).1⟩

/-! ## Claim C9: failed parses keep the earlier fields -/

/-- C9: when `tag_parse` fails at the tagger line or at the
blank-line message separator, the record it was filling still holds the
target id, the target type and the tag name parsed from the earlier
fields of the same buffer (and, for a separator failure, the tagger). -/
theorem C9_partial_record (oid : List Char) (ty : Int) (name rest : List Char)
    (hv : ValidOid oid) (hty : ty = 1 ∨ ty = 2 ∨ ty = 3 ∨ ty = 4)
    (hnameNL : '\n' ∉ name) :
    (rest ≠ [] → rest.head? ≠ some '\n' → git_signature__parse taggerHdr rest = none →
      tag_parse {} (objectHdr ++ oid ++ ['\n'] ++ typeHdr ++ git_object_type2string ty ++
          ['\n'] ++ tagHdr ++ name ++ ['\n'] ++ rest)
        = ({ target := oid, type := ty, tag_name := name,
             tagger := none, message := none }, some .taggerInvalid))
    ∧ (∀ sig c tail, '\n' ∉ sig → c ≠ '\n' →
      tag_parse {} (objectHdr ++ oid ++ ['\n'] ++ typeHdr ++ git_object_type2string ty ++
          ['\n'] ++ tagHdr ++ name ++ ['\n'] ++ (taggerHdr ++ sig ++ '\n' :: c :: tail))
        = ({ target := oid, type := ty, tag_name := name,
             tagger := some sig, message := none }, some .noNewLineBeforeMessage)) := by
  constructor
  · intro hne hhd hsigfail
    rw [tag_parse_serialized_header {} oid ty name rest hv hty hnameNL]
    unfold tag_parse_tail
    rw [if_pos ⟨hne, hhd⟩, hsigfail]
  · intro sig c tail hsig hc
    rw [tag_parse_serialized_header {} oid ty name _ hv hty hnameNL,
      tag_parse_tail_sig _ sig _ hsig]
    simp [tag_parse_msg, hc]

theorem C9_partial_record_witness :
    ValidOid (List.replicate 40 '0') ∧
    git_signature__parse taggerHdr ['x'] = none ∧
    tag_parse {} (objectHdr ++ List.replicate 40 '0' ++ ['\n'] ++ typeHdr ++
        git_object_type2string 2 ++ ['\n'] ++ tagHdr ++ ['v'] ++ ['\n'] ++ ['x'])
      = ({ target := List.replicate 40 '0', type := 2, tag_name := ['v'],
           tagger := none, message := none }, some .taggerInvalid) :=
  ⟨by decide, by decide,
   (C9_partial_record (List.replicate 40 '0') 2 ['v'] ['x']
     (by decide) (Or.inr (Or.inl rfl)) (by decide)).1
     (by decide) (by decide) (by decide)⟩

/-! ## Claim C3: error kinds at the type-field boundary -/

/-- C3 counterexample: the buffer `object <40 zeros>\ntype com` runs
out of bytes while the typenames are being matched, yet `tag_parse`
fails with the generic truncation error (`Object too short`), not with
the type-field error (`Invalid object type`). -/
theorem C3_counterexample :
    (tag_parse {} (objectHdr ++ List.replicate 40 '0' ++ ['\n'] ++
        ['t', 'y', 'p', 'e', ' ', 'c', 'o', 'm'])).2 = some TagErr.objectTooShort
    ∧ TagErr.objectTooShort ≠ TagErr.invalidObjectType := by
  exact ⟨by decide, by decide⟩

/-- C3 amended: after the object line and the `type ` marker parse, a
remainder longer than seven bytes that matches none of the four
typenames fails with the type-field error (`Invalid object type`); but
a remainder of at most seven bytes fails with the generic truncation
error (`Object too short`) — the same kind the object-, tag- and
name-boundary truncations use — even when a shorter typename such as
`tag\n` is a prefix of it. -/
theorem C3_type_stage_errors (b oid b1 : List Char)
    (hoid : git_oid__parse objectHdr b = some (oid, b1))
    (hlen : ¬(b1.length ≤ 5)) (hhdr : b1.take 5 = typeHdr) :
    ((b1.drop 5).length ≤ 7 → (tag_parse {} b).2 = some TagErr.objectTooShort)
    ∧ (¬((b1.drop 5).length ≤ 7) →
        commitNL.isPrefixOf (b1.drop 5) = false →
        treeNL.isPrefixOf (b1.drop 5) = false →
        blobNL.isPrefixOf (b1.drop 5) = false →
        tagNL.isPrefixOf (b1.drop 5) = false →
        (tag_parse {} b).2 = some TagErr.invalidObjectType) := by
  constructor
  · intro h7
    unfold tag_parse
    rw [hoid]
    simp only
    rw [if_neg hlen, if_pos hhdr]
    unfold matchType tag_types
    conv_lhs => rw [matchTypeGo]
    rw [if_pos (by simpa [commitNL] using h7)]
  · intro h7 hc ht hb htg
    unfold tag_parse
    rw [hoid]
    simp only
    rw [if_neg hlen, if_pos hhdr]
    unfold matchType tag_types
    have h7n : ¬((b1.drop 5).length ≤ commitNL.length) := by
      simpa [commitNL] using h7
    have htn : ¬((b1.drop 5).length ≤ treeNL.length) := by
      simp only [treeNL, List.length_cons, List.length_nil] at *
      omega
    have hbn : ¬((b1.drop 5).length ≤ blobNL.length) := by
      simp only [blobNL, List.length_cons, List.length_nil] at *
      omega
    have htgn : ¬((b1.drop 5).length ≤ tagNL.length) := by
      simp only [tagNL, List.length_cons, List.length_nil] at *
      omega
    rw [matchTypeGo_skip 1 commitNL [treeNL, blobNL, tagNL] (b1.drop 5) h7n hc]
    rw [matchTypeGo_skip (1 + 1) treeNL [blobNL, tagNL] (b1.drop 5) htn ht]
    rw [matchTypeGo_skip (1 + 1 + 1) blobNL [tagNL] (b1.drop 5) hbn hb]
    rw [matchTypeGo_skip (1 + 1 + 1 + 1) tagNL [] (b1.drop 5) htgn htg]
    rfl

theorem C3_type_stage_errors_witness :
    git_oid__parse objectHdr (objectHdr ++ List.replicate 40 '0' ++ ['\n'] ++
        ['t', 'y', 'p', 'e', ' ', 'x', 'y', 'z', 'w', '1', '2', '3', '4'])
      = some (List.replicate 40 '0', ['t', 'y', 'p', 'e', ' ', 'x', 'y', 'z', 'w', '1', '2', '3', '4'])
    ∧ (tag_parse {} (objectHdr ++ List.replicate 40 '0' ++ ['\n'] ++
        ['t', 'y', 'p', 'e', ' ', 'x', 'y', 'z', 'w', '1', '2', '3', '4'])).2
      = some TagErr.invalidObjectType :=
  ⟨by decide,
   (C3_type_stage_errors _ (List.replicate 40 '0')
       ['t', 'y', 'p', 'e', ' ', 'x', 'y', 'z', 'w', '1', '2', '3', '4']
       (by decide) (by decide) (by decide)).2
     (by decide) (by decide) (by decide) (by decide) (by decide)⟩

/-! ## The collaborator stores (modelled from the spec) -/

/-- An object-database entry: id, kind, bytes. -/
abbrev ObjEntry := List Char × Int × List Char

/-- A reference-store entry: full reference name, and the id it
resolves to — `none` models a reference that enumerates but whose
resolution fails (e.g. a dangling symbolic reference). -/
abbrev RefEntry := List Char × Option (List Char)

def GIT_OBJ_TAG : Int := 4
def GIT_ENOTFOUND : Int := -3
def GIT_EEXISTS : Int := -4

def hexDigitChar (n : Nat) : Char := lowerHexChars.getD n '0'

def hexRender : Nat → Nat → List Char
  | 0, _ => []
  | k + 1, n => hexDigitChar (n % 16) :: hexRender k (n / 16)

/-- Modelled from the spec: the object store's content hash
(`write(bytes, kind) -> id`), rendered as a 40-hex-character id.  The
claims depend only on it being a function of kind and bytes. -/
def odbHash (kind : Int) (bytes : List Char) : List Char :=
  hexRender 40 (bytes.foldl (fun a c => a * 1114112 + c.toNat + 1) (kind.toNat + 1))

/-- Modelled from the spec: `read(id) -> (kind, bytes)` of the object
store (`git_odb_read`); fails when the id is absent. -/
def git_odb_read : List ObjEntry → List Char → Option (Int × List Char)
  | [], _ => none
  | e :: t, oid => if e.1 = oid then some e.2 else git_odb_read t oid

/-- Modelled from the spec: `write(bytes, kind) -> id` of the object
store (`git_odb_write`, and the open/write/finalize stream triple used
by the raw-buffer path). -/
def git_odb_write (odb : List ObjEntry) (kind : Int) (bytes : List Char) :
    List Char × List ObjEntry :=
  let oid := odbHash kind bytes
  (oid, (oid, kind, bytes) :: odb)

/-- Modelled from the spec: reference-store lookup by full name; the
outer `Option` is existence, the inner one resolvability. -/
def refLookup : List RefEntry → List Char → Option (Option (List Char))
  | [], _ => none
  | e :: t, name => if e.1 = name then some e.2 else refLookup t name

/-- Modelled from the spec: `git_reference_name_to_id` — resolve a
reference name to an id; `GIT_ENOTFOUND` when the reference is absent,
a plain error when it exists but cannot be resolved. -/
def git_reference_name_to_id (refs : List RefEntry) (name : List Char) :
    Except Int (List Char) :=
  match refLookup refs name with
  | none => .error GIT_ENOTFOUND
  | some none => .error (-1)
  | some (some oid) => .ok oid

/-- Modelled from the spec: `git_reference_create` — the reference
store's atomic create-or-update; with `force` false an existing binding
yields `GIT_EEXISTS`, otherwise the binding is created or replaced. -/
def git_reference_create (refs : List RefEntry) (name oid : List Char) (force : Bool) :
    Except Int (List RefEntry) :=
  if (refLookup refs name).isSome then
    if force then .ok (refs.map (fun e => if e.1 = name then (name, some oid) else e))
    else .error GIT_EEXISTS
  else .ok ((name, some oid) :: refs)

/-- Modelled from the spec: `git_reference_delete` removes the binding. -/
def refDelete : List RefEntry → List Char → List RefEntry
  | [], _ => []
  | e :: t, name => if e.1 = name then refDelete t name else e :: refDelete t name

/-- A repository: an identity (standing in for the C pointer compared
by `git_object_owner`), the object database, and the reference store. -/
structure Repo where
  rid : Nat := 0
  odb : List ObjEntry := []
  refdb : List RefEntry := []
deriving DecidableEq, Repr

/-- A resolved `git_object`: id, kind, and owning repository. -/
structure GitObject where
  id : List Char
  type : Int
  owner : Nat
deriving DecidableEq, Repr

/-! ## Tag creation (`tag.c` lines 195-389) -/

/-- `write_tag_annotation` (tag.c lines 195-228): serialize the fields
and write the buffer to the object store as a Tag-kind object. -/
def write_tag_annotation (repo : Repo) (tag_name : List Char) (target : GitObject)
    (tagger message : List Char) : List Char × Repo :=
  let buf := serializeTag target.id target.type tag_name tagger message
  let p := git_odb_write repo.odb GIT_OBJ_TAG buf
  (p.1, { repo with odb := p.2 })

/-- The annotation-write + reference-create phase of
`git_tag_create__internal` (tag.c lines 265-276): write the annotation
(or reuse the target's id for a lightweight tag), then create the
reference. -/
def tag_create_finish (repo : Repo) (tag_name : List Char) (target : GitObject)
    (tagger message : Option (List Char)) (allow_ref_overwrite : Bool)
    (annotate : Bool) : Int × List Char × Repo :=
  let p :=
    if annotate then
      write_tag_annotation repo tag_name target (tagger.getD []) (message.getD [])
    else (target.id, repo)
  match git_reference_create p.2.refdb (refsTagsDir ++ tag_name) p.1 allow_ref_overwrite with
  | .error e => (e, p.1, p.2)
  | .ok refs => (0, p.1, { p.2 with refdb := refs })

/-- `git_tag_create__internal` (tag.c lines 230-277): reject targets of
another repository, resolve the prospective reference name (errors
other than `GIT_ENOTFOUND` propagate; an existing name without
`allow_ref_overwrite` is `GIT_EEXISTS` with the existing id reported),
then write and bind. -/
def git_tag_create__internal (repo : Repo) (tag_name : List Char) (target : GitObject)
    (tagger message : Option (List Char)) (allow_ref_overwrite : Bool)
    (annotate : Bool) : Int × List Char × Repo :=
  if target.owner ≠ repo.rid then (-1, [], repo)
  else
    match git_reference_name_to_id repo.refdb (refsTagsDir ++ tag_name) with
    | .error e =>
      if e ≠ GIT_ENOTFOUND then (e, [], repo)
      else tag_create_finish repo tag_name target tagger message allow_ref_overwrite
        annotate
    | .ok oid0 =>
      if ¬allow_ref_overwrite then (GIT_EEXISTS, oid0, repo)
      else tag_create_finish repo tag_name target tagger message allow_ref_overwrite
        annotate

/-- `git_tag_create` (tag.c lines 279-289). -/
def git_tag_create (repo : Repo) (tag_name : List Char) (target : GitObject)
    (tagger message : List Char) (allow_ref_overwrite : Bool) : Int × List Char × Repo :=
  git_tag_create__internal repo tag_name target (some tagger) (some message)
    allow_ref_overwrite true

/-- `git_tag_create_lightweight` (tag.c lines 304-312). -/
def git_tag_create_lightweight (repo : Repo) (tag_name : List Char) (target : GitObject)
    (allow_ref_overwrite : Bool) : Int × List Char × Repo :=
  git_tag_create__internal repo tag_name target none none allow_ref_overwrite false

/-- The error kinds observable from `git_tag_create_frombuffer`
(return code plus the error class it sets): parse failures, the spec's
`TargetNotFound` and `TypeMismatch` validation failures,
`AlreadyExists`, and passed-through reference-store codes. -/
inductive TagOpErr where
  | parseFailed (e : TagErr)
  | targetNotFound
  | typeMismatch
  | alreadyExists
  | refStoreError (code : Int)
deriving DecidableEq, Repr

/-- The write phase of `git_tag_create_frombuffer` (tag.c lines
362-381): stream the raw caller buffer into the store as a Tag-kind
object and create the reference. -/
def tag_frombuffer_write (repo : Repo) (ref_name buffer : List Char)
    (allow_ref_overwrite : Bool) : Except TagOpErr (List Char) × Repo :=
  let p := git_odb_write repo.odb GIT_OBJ_TAG buffer
  let repo2 : Repo := { repo with odb := p.2 }
  match git_reference_create repo2.refdb ref_name p.1 allow_ref_overwrite with
  | .error e => (.error (.refStoreError e), repo2)
  | .ok refs => (.ok p.1, { repo2 with refdb := refs })

/-- `git_tag_create_frombuffer` (tag.c lines 314-389): parse the
buffer, read the target (failure → `TargetNotFound`), require the
declared type to equal the stored type (→ `TypeMismatch`), check the
name, then write the raw buffer verbatim and bind the reference. -/
def git_tag_create_frombuffer (repo : Repo) (buffer : List Char)
    (allow_ref_overwrite : Bool) : Except TagOpErr (List Char) × Repo :=
  match tag_parse {} buffer with
  | (_, some e) => (.error (.parseFailed e), repo)
  | (tag, none) =>
    match git_odb_read repo.odb tag.target with
    | none => (.error .targetNotFound, repo)
    | some (kind, _) =>
      if tag.type ≠ kind then (.error .typeMismatch, repo)
      else
        match git_reference_name_to_id repo.refdb (refsTagsDir ++ tag.tag_name) with
        | .error e =>
          if e ≠ GIT_ENOTFOUND then (.error (.refStoreError e), repo)
          else tag_frombuffer_write repo (refsTagsDir ++ tag.tag_name) buffer
            allow_ref_overwrite
        | .ok _ =>
          if ¬allow_ref_overwrite then (.error .alreadyExists, repo)
          else tag_frombuffer_write repo (refsTagsDir ++ tag.tag_name) buffer
            allow_ref_overwrite

/-! ## Tag deletion (`git_tag_delete`, tag.c lines 391-408) -/

/-- `git_tag_delete`: look the reference up (absence propagates as the
lookup's `GIT_ENOTFOUND`), then delete it from the reference store.
The object database is never touched. -/
def git_tag_delete (repo : Repo) (tag_name : List Char) : Int × Repo :=
  match refLookup repo.refdb (refsTagsDir ++ tag_name) with
  | none => (GIT_ENOTFOUND, repo)
  | some _ => (0, { repo with refdb := refDelete repo.refdb (refsTagsDir ++ tag_name) })

/-! ## Enumeration (`tag.c` lines 410-497) -/

/-- Modelled from the spec: `git_reference_foreach_name` visits every
reference name in enumeration order; a nonzero callback return halts
enumeration immediately and is returned. -/
def git_reference_foreach_name {σ : Type} (refs : List RefEntry)
    (cb : List Char → σ → Int × σ) (s : σ) : Int × σ :=
  match refs with
  | [] => (0, s)
  | e :: rest =>
    let r := cb e.1 s
    if r.1 ≠ 0 then r else git_reference_foreach_name rest cb r.2

/-- `tags_cb` (tag.c lines 416-431): skip references outside
`refs/tags/`, resolve the rest to ids, propagating resolution failures
and nonzero user-callback returns. -/
def tags_cb {σ : Type} (repo : Repo) (cb : List Char → List Char → σ → Int × σ)
    (ref : List Char) (s : σ) : Int × σ :=
  if ¬(refsTagsDir.isPrefixOf ref) then (0, s)
  else
    match git_reference_name_to_id repo.refdb ref with
    | .error e => (e, s)
    | .ok oid => cb ref oid s

/-- `git_tag_foreach` (tag.c lines 433-444). -/
def git_tag_foreach {σ : Type} (repo : Repo) (cb : List Char → List Char → σ → Int × σ)
    (s : σ) : Int × σ :=
  git_reference_foreach_name repo.refdb (tags_cb repo cb) s

/-- The recursion of shell-style wildcard matching, on explicit fuel
so that it reduces in the kernel; every step shortens the pattern or
the string, so `p.length + s.length + 1` units of fuel always carry it
to a base case. -/
def fnmatchFuel : Nat → List Char → List Char → Bool
  | 0, _, _ => false
  | _ + 1, [], [] => true
  | _ + 1, [], _ :: _ => false
  | f + 1, '*' :: ps, [] => fnmatchFuel f ps []
  | f + 1, '*' :: ps, c :: s => fnmatchFuel f ps (c :: s) || fnmatchFuel f ('*' :: ps) s
  | _ + 1, '?' :: _, [] => false
  | f + 1, '?' :: ps, _ :: s => fnmatchFuel f ps s
  | _ + 1, _ :: _, [] => false
  | f + 1, p :: ps, c :: s => (p == c) && fnmatchFuel f ps s

/-- Modelled from the spec: `p_fnmatch`, shell-style wildcard matching
(an out-of-scope glob-primitive collaborator; `*` and `?` suffice for
the claims).  `true` corresponds to the C's return of 0, a match. -/
def p_fnmatch (p s : List Char) : Bool :=
  fnmatchFuel (p.length + s.length + 1) p s

/-- `tag_list_cb` (tag.c lines 453-467): keep the short name (namespace
prefix stripped) when the pattern is empty or matches it; the vector
insert appends. -/
def tag_list_cb (pattern tag_name oid : List Char) (taglist : List (List Char)) :
    Int × List (List Char) :=
  if pattern = [] ∨ p_fnmatch pattern (tag_name.drop refsTagsDir.length) then
    (0, taglist ++ [tag_name.drop refsTagsDir.length])
  else (0, taglist)

/-- `git_tag_list_match` (tag.c lines 469-492): run the enumeration,
free the collected vector when it failed, detach it, and return 0 —
line 491 returns success even when `git_tag_foreach` failed. -/
def git_tag_list_match (repo : Repo) (pattern : List Char) : Int × List (List Char) :=
  let r := git_tag_foreach repo (tag_list_cb pattern) []
  (0, if r.1 < 0 then [] else r.2)

/-- `git_tag_list` (tag.c lines 494-497). -/
def git_tag_list (repo : Repo) : Int × List (List Char) :=
  git_tag_list_match repo []

/-! ## Reference-store lemmas -/

theorem refLookup_delete_self (refs : List RefEntry) (n : List Char) :
    refLookup (refDelete refs n) n = none := by
  induction refs with
  | nil => rfl
  | cons e t ih =>
    by_cases h : e.1 = n
    · simpa [refDelete, h] using ih
    · simp only [refDelete, if_neg h, refLookup, ih]

theorem refLookup_delete_other (refs : List RefEntry) (n m : List Char) (h : m ≠ n) :
    refLookup (refDelete refs n) m = refLookup refs m := by
  induction refs with
  | nil => rfl
  | cons e t ih =>
    by_cases he : e.1 = n
    · have hm : ¬(e.1 = m) := by rw [he]; exact fun hc => h hc.symm
      simp only [refDelete, if_pos he, refLookup, if_neg hm, ih]
    · simp only [refDelete, if_neg he, refLookup, ih]

theorem refLookup_replace_found (refs : List RefEntry) (n oid : List Char)
    (h : (refLookup refs n).isSome) :
    refLookup (refs.map (fun e => if e.1 = n then (n, some oid) else e)) n
      = some (some oid) := by
  induction refs with
  | nil => simp [refLookup] at h
  | cons e t ih =>
    by_cases he : e.1 = n
    · simp [he, refLookup]
    · simp only [refLookup, if_neg he] at h
      simp only [List.map_cons, if_neg he, refLookup, ih h]

/-! ## Claim C10: delete touches only the reference store -/

/-- C10: `git_tag_delete` never writes to or deletes from the object
store — the resulting repository has the same object database (so any
stored Tag object and its target stay stored) — and on success exactly
the `refs/tags/<name>` binding is removed, every other reference name
resolving as before. -/
theorem C10_delete_frame (repo : Repo) (tag_name : List Char) :
    (git_tag_delete repo tag_name).2.odb = repo.odb
    ∧ (git_tag_delete repo tag_name).2.rid = repo.rid
    ∧ ((git_tag_delete repo tag_name).1 = 0 →
        refLookup (git_tag_delete repo tag_name).2.refdb (refsTagsDir ++ tag_name) = none
        ∧ ∀ m, m ≠ refsTagsDir ++ tag_name →
            refLookup (git_tag_delete repo tag_name).2.refdb m = refLookup repo.refdb m) := by
  unfold git_tag_delete
  cases hl : refLookup repo.refdb (refsTagsDir ++ tag_name) with
  | none =>
    refine ⟨rfl, rfl, ?_⟩
    intro h0
    simp [GIT_ENOTFOUND] at h0
  | some v =>
    refine ⟨rfl, rfl, fun _ => ⟨?_, ?_⟩⟩
    · exact refLookup_delete_self repo.refdb (refsTagsDir ++ tag_name)
    · intro m hm
      exact refLookup_delete_other repo.refdb (refsTagsDir ++ tag_name) m hm

/-- A one-tag fixture repository used by concrete witnesses. -/
def repoOneTag : Repo where
  rid := 0
  odb := [(['a'], GIT_OBJ_TAG, ['x'])]
  refdb := [(refsTagsDir ++ ['v'], some ['a'])]

theorem C10_delete_frame_witness :
    (git_tag_delete repoOneTag ['v']).2.odb = [(['a'], GIT_OBJ_TAG, ['x'])]
    ∧ refLookup (git_tag_delete repoOneTag ['v']).2.refdb (refsTagsDir ++ ['v']) = none := by
  have h := C10_delete_frame repoOneTag ['v']
  exact ⟨h.1, (h.2.2 (by decide)).1⟩

/-! ## Claim C6: overwrite invariant -/

/-- C6: with a binding already present at `refs/tags/<name>` (as after
a first successful create), a second `git_tag_create`/`_lightweight`
call (both run `git_tag_create__internal`) with
`allow_ref_overwrite = false` returns `GIT_EEXISTS` and leaves the
repository — reference binding and object store — unchanged; with
`allow_ref_overwrite = true` it succeeds and rebinds the name to the
new id (the freshly written annotation's id, or the target's id for a
lightweight tag). -/
theorem C6_overwrite (repo : Repo) (tag_name : List Char) (target : GitObject)
    (tagger message : Option (List Char)) (ann : Bool) (oid0 : List Char)
    (hown : target.owner = repo.rid)
    (hex : refLookup repo.refdb (refsTagsDir ++ tag_name) = some (some oid0)) :
    git_tag_create__internal repo tag_name target tagger message false ann
      = (GIT_EEXISTS, oid0, repo)
    ∧ (git_tag_create__internal repo tag_name target tagger message true ann).1 = 0
    ∧ (git_tag_create__internal repo tag_name target tagger message true ann).2.1
      = (if ann then
          odbHash GIT_OBJ_TAG (serializeTag target.id target.type tag_name
            (tagger.getD []) (message.getD []))
         else target.id)
    ∧ refLookup (git_tag_create__internal repo tag_name target tagger message true ann).2.2.refdb
        (refsTagsDir ++ tag_name)
      = some (some (if ann then
          odbHash GIT_OBJ_TAG (serializeTag target.id target.type tag_name
            (tagger.getD []) (message.getD []))
         else target.id)) := by
  have hobj : ¬(target.owner ≠ repo.rid) := by simp [hown]
  have hid : git_reference_name_to_id repo.refdb (refsTagsDir ++ tag_name) = .ok oid0 := by
    simp [git_reference_name_to_id, hex]
  have hfinish :
      tag_create_finish repo tag_name target tagger message true ann
        = (0, (if ann then
            odbHash GIT_OBJ_TAG (serializeTag target.id target.type tag_name
              (tagger.getD []) (message.getD []))
           else target.id),
           (tag_create_finish repo tag_name target tagger message true ann).2.2)
      ∧ refLookup (tag_create_finish repo tag_name target tagger message true ann).2.2.refdb
          (refsTagsDir ++ tag_name)
        = some (some (if ann then
            odbHash GIT_OBJ_TAG (serializeTag target.id target.type tag_name
              (tagger.getD []) (message.getD []))
           else target.id)) := by
    have hsome : (refLookup repo.refdb (refsTagsDir ++ tag_name)).isSome := by
      rw [hex]; rfl
    cases ann with
    | false =>
      have hcr : git_reference_create repo.refdb (refsTagsDir ++ tag_name) target.id true
          = .ok (repo.refdb.map (fun e =>
              if e.1 = refsTagsDir ++ tag_name
              then (refsTagsDir ++ tag_name, some target.id) else e)) := by
        simp [git_reference_create, hsome]
      have hfin : tag_create_finish repo tag_name target tagger message true false
          = (0, target.id, { repo with refdb := repo.refdb.map (fun e =>
              if e.1 = refsTagsDir ++ tag_name
              then (refsTagsDir ++ tag_name, some target.id) else e) }) := by
        unfold tag_create_finish
        simp only [Bool.false_eq_true, if_false, hcr]
      rw [hfin]
      exact ⟨rfl, refLookup_replace_found repo.refdb (refsTagsDir ++ tag_name)
        target.id hsome⟩
    | true =>
      have hcr : git_reference_create repo.refdb (refsTagsDir ++ tag_name)
          (odbHash GIT_OBJ_TAG (serializeTag target.id target.type tag_name
            (tagger.getD []) (message.getD []))) true
          = .ok (repo.refdb.map (fun e =>
              if e.1 = refsTagsDir ++ tag_name
              then (refsTagsDir ++ tag_name, some (odbHash GIT_OBJ_TAG
                (serializeTag target.id target.type tag_name
                  (tagger.getD []) (message.getD [])))) else e)) := by
        simp [git_reference_create, hsome]
      have hfin : tag_create_finish repo tag_name target tagger message true true
          = (0, odbHash GIT_OBJ_TAG (serializeTag target.id target.type tag_name
              (tagger.getD []) (message.getD [])),
              { rid := repo.rid,
                odb := (odbHash GIT_OBJ_TAG (serializeTag target.id target.type tag_name
                  (tagger.getD []) (message.getD [])), GIT_OBJ_TAG,
                  serializeTag target.id target.type tag_name
                    (tagger.getD []) (message.getD [])) :: repo.odb,
                refdb := repo.refdb.map (fun e =>
                  if e.1 = refsTagsDir ++ tag_name
                  then (refsTagsDir ++ tag_name, some (odbHash GIT_OBJ_TAG
                    (serializeTag target.id target.type tag_name
                      (tagger.getD []) (message.getD [])))) else e) }) := by
        unfold tag_create_finish write_tag_annotation git_odb_write
        simp only [if_true, hcr]
      rw [hfin]
      exact ⟨rfl, refLookup_replace_found repo.refdb (refsTagsDir ++ tag_name) _ hsome⟩
  refine ⟨?_, ?_, ?_, ?_⟩
  · unfold git_tag_create__internal
    rw [if_neg hobj, hid]
    simp
  · unfold git_tag_create__internal
    rw [if_neg hobj, hid]
    simp only [not_true, if_neg]
    rw [hfinish.1]
    simp
  · unfold git_tag_create__internal
    rw [if_neg hobj, hid]
    simp only [not_true, if_neg]
    rw [hfinish.1]
    simp
  · unfold git_tag_create__internal
    rw [if_neg hobj, hid]
    simp only [not_true, if_neg]
    exact hfinish.2

/-- A target object living in `repoOneTag`. -/
def targetA : GitObject where
  id := ['a']
  type := 1
  owner := 0

theorem C6_overwrite_witness :
    targetA.owner = repoOneTag.rid
    ∧ refLookup repoOneTag.refdb (refsTagsDir ++ ['v']) = some (some ['a'])
    ∧ git_tag_create__internal repoOneTag ['v'] targetA none none false false
      = (GIT_EEXISTS, ['a'], repoOneTag) :=
  ⟨by decide, by decide,
   (C6_overwrite repoOneTag ['v'] targetA none none false ['a']
     (by decide) (by decide)).1⟩

/-! ## Claim C4: raw-buffer validation failures are clean -/

/-- C4: for every buffer `tag_parse` accepts,
`git_tag_create_frombuffer` fails with `TargetNotFound` when the store
cannot read the parsed target id, and with `TypeMismatch` when the
stored kind differs from the buffer's declared type — in both cases
returning the repository unchanged (no tag object written, no
reference created). -/
theorem C4_frombuffer_validation (repo : Repo) (buffer : List Char) (force : Bool)
    (tag : GitTagRec) (hparse : tag_parse {} buffer = (tag, none)) :
    (git_odb_read repo.odb tag.target = none →
      git_tag_create_frombuffer repo buffer force = (.error .targetNotFound, repo))
    ∧ (∀ k bs, git_odb_read repo.odb tag.target = some (k, bs) → tag.type ≠ k →
      git_tag_create_frombuffer repo buffer force = (.error .typeMismatch, repo)) := by
  constructor
  · intro hread
    unfold git_tag_create_frombuffer
    rw [hparse]
    simp only
    rw [hread]
  · intro k bs hread hne
    unfold git_tag_create_frombuffer
    rw [hparse]
    simp only
    rw [hread]
    simp only [if_pos hne]

/-- A raw tag buffer whose target id is forty `a`s, declared a commit,
named `v`, with no tagger and no message. -/
def bufObjA : List Char :=
  objectHdr ++ List.replicate 40 'a' ++ ['\n'] ++ typeHdr ++
    git_object_type2string 1 ++ ['\n'] ++ tagHdr ++ ['v'] ++ ['\n']

theorem C4_frombuffer_validation_witness :
    tag_parse {} bufObjA
      = ({ target := List.replicate 40 'a', type := 1, tag_name := ['v'],
           tagger := none, message := none }, none)
    ∧ git_odb_read repoOneTag.odb (List.replicate 40 'a') = none
    ∧ git_tag_create_frombuffer repoOneTag bufObjA false
      = (.error .targetNotFound, repoOneTag) :=
  ⟨by decide, by decide,
   (C4_frombuffer_validation repoOneTag bufObjA false
       { target := List.replicate 40 'a', type := 1, tag_name := ['v'],
         tagger := none, message := none }
       (by decide)).1 (by decide)⟩

/-! ## Claim C5: the raw buffer is stored verbatim -/

/-- Any outcome of the write phase leaves the raw buffer, keyed by its
hash, at the head of the object store. -/
theorem frombuffer_write_odb (repo : Repo) (rn buffer : List Char) (force : Bool) :
    (tag_frombuffer_write repo rn buffer force).2.odb
      = (odbHash GIT_OBJ_TAG buffer, GIT_OBJ_TAG, buffer) :: repo.odb := by
  simp only [tag_frombuffer_write, git_odb_write]
  split <;> rfl

/-- A successful write phase returns the hash of the raw buffer. -/
theorem frombuffer_write_oid (repo : Repo) (rn buffer : List Char) (force : Bool)
    (oid : List Char) (h : (tag_frombuffer_write repo rn buffer force).1 = .ok oid) :
    oid = odbHash GIT_OBJ_TAG buffer := by
  simp only [tag_frombuffer_write, git_odb_write] at h
  split at h
  · simp at h
  · simp only [Except.ok.injEq] at h
    exact h.symm

/-- `git_tag_create_frombuffer` either fails leaving the repository
unchanged, or hands control to the raw-buffer write phase. -/
theorem frombuffer_cases (repo : Repo) (buffer : List Char) (force : Bool) :
    (∃ e, git_tag_create_frombuffer repo buffer force = (.error e, repo))
    ∨ ∃ rn, git_tag_create_frombuffer repo buffer force
        = tag_frombuffer_write repo rn buffer force := by
  unfold git_tag_create_frombuffer
  rcases tag_parse {} buffer with ⟨tg, pe⟩
  cases pe with
  | some e => exact Or.inl ⟨.parseFailed e, rfl⟩
  | none =>
    simp only
    cases git_odb_read repo.odb tg.target with
    | none => exact Or.inl ⟨.targetNotFound, rfl⟩
    | some p =>
      rcases p with ⟨k, bs⟩
      simp only
      by_cases ht : tg.type ≠ k
      · rw [if_pos ht]
        exact Or.inl ⟨.typeMismatch, rfl⟩
      · rw [if_neg ht]
        cases git_reference_name_to_id repo.refdb (refsTagsDir ++ tg.tag_name) with
        | error e =>
          simp only
          by_cases he : e ≠ GIT_ENOTFOUND
          · rw [if_pos he]
            exact Or.inl ⟨.refStoreError e, rfl⟩
          · rw [if_neg he]
            exact Or.inr ⟨refsTagsDir ++ tg.tag_name, rfl⟩
        | ok o =>
          simp only
          by_cases hf : ¬force
          · rw [if_pos hf]
            exact Or.inl ⟨.alreadyExists, rfl⟩
          · rw [if_neg hf]
            exact Or.inr ⟨refsTagsDir ++ tg.tag_name, rfl⟩

/-- C5: whenever `git_tag_create_frombuffer` succeeds, the new
Tag-kind object committed to the store holds byte-for-byte the
caller-supplied buffer (the store gains exactly that entry, and reading
the returned id yields those bytes), not a re-serialization of the
parsed structure. -/
theorem C5_verbatim_write (repo : Repo) (buffer : List Char) (force : Bool)
    (oid : List Char) (h : (git_tag_create_frombuffer repo buffer force).1 = .ok oid) :
    (git_tag_create_frombuffer repo buffer force).2.odb
      = (oid, GIT_OBJ_TAG, buffer) :: repo.odb
    ∧ git_odb_read (git_tag_create_frombuffer repo buffer force).2.odb oid
      = some (GIT_OBJ_TAG, buffer) := by
  have hodb : (git_tag_create_frombuffer repo buffer force).2.odb
      = (oid, GIT_OBJ_TAG, buffer) :: repo.odb := by
    rcases frombuffer_cases repo buffer force with ⟨e, hE⟩ | ⟨rn, hW⟩
    · rw [hE] at h
      simp at h
    · rw [hW] at h ⊢
      rw [frombuffer_write_odb repo rn buffer force,
        frombuffer_write_oid repo rn buffer force oid h]
  refine ⟨hodb, ?_⟩
  rw [hodb]
  simp [git_odb_read]

/-- A fixture repository storing a commit-kind object under the
forty-`a` id, with no references. -/
def repoFortyA : Repo where
  rid := 0
  odb := [(List.replicate 40 'a', 1, ['c'])]
  refdb := []

theorem C5_verbatim_write_witness :
    (git_tag_create_frombuffer repoFortyA bufObjA false).1
      = .ok (odbHash GIT_OBJ_TAG bufObjA)
    ∧ (git_tag_create_frombuffer repoFortyA bufObjA false).2.odb
      = (odbHash GIT_OBJ_TAG bufObjA, GIT_OBJ_TAG, bufObjA) :: repoFortyA.odb :=
  ⟨by rfl,
   (C5_verbatim_write repoFortyA bufObjA false (odbHash GIT_OBJ_TAG bufObjA)
     (by rfl)).1⟩

/-! ## Claim C2: error propagation through enumeration -/

/-- A fixture repository whose single tag reference enumerates but
fails to resolve to an id. -/
def repoBrokenRef : Repo where
  rid := 0
  odb := []
  refdb := [(refsTagsDir ++ ['b'], none)]

/-- C2 evaluated at the failing input: when a tag reference's id
resolution fails, `git_tag_foreach` duly returns the error (−1), but
`git_tag_list_match` frees the collected vector and still returns
success (tag.c line 491 returns 0 unconditionally) with an empty
array — the enumeration error is swallowed, contradicting the claim's
"git_tag_list_match never returns success when git_tag_foreach
returned an error". -/
theorem C2_list_swallows_foreach_error :
    (git_tag_foreach repoBrokenRef (tag_list_cb []) []).1 = -1
    ∧ git_tag_list_match repoBrokenRef [] = (0, []) :=
  ⟨by decide, by decide⟩

/-! ## Claim C8: glob filter correctness -/

/-- The spec's description of the catalog result: the short names
(namespace prefix stripped) of exactly the references inside the tags
namespace whose stripped name matches the glob — every one of them when
the pattern is empty — in enumeration order. -/
def specTagList (pattern : List Char) (refs : List RefEntry) : List (List Char) :=
  refs.filterMap (fun e =>
    if refsTagsDir.isPrefixOf e.1
        ∧ (pattern = [] ∨ p_fnmatch pattern (e.1.drop refsTagsDir.length))
    then some (e.1.drop refsTagsDir.length) else none)

theorem refLookup_isSome_of_mem {l : List RefEntry} {e : RefEntry} (he : e ∈ l) :
    (refLookup l e.1).isSome := by
  induction l with
  | nil => cases he
  | cons a t ih =>
    by_cases h : a.1 = e.1
    · simp [refLookup, h]
    · rcases List.mem_cons.1 he with rfl | ht
      · exact absurd rfl h
      · simp only [refLookup, if_neg h]
        exact ih ht

theorem refLookup_resolvable {l : List RefEntry} (hres : ∀ e ∈ l, e.2.isSome)
    {n : List Char} (h : (refLookup l n).isSome) :
    ∃ o, refLookup l n = some (some o) := by
  induction l with
  | nil => simp [refLookup] at h
  | cons a t ih =>
    by_cases ha : a.1 = n
    · have hs := hres a (List.mem_cons_self a t)
      rcases Option.isSome_iff_exists.1 hs with ⟨o, ho⟩
      exact ⟨o, by simp [refLookup, ha, ho]⟩
    · simp only [refLookup, if_neg ha] at h ⊢
      exact ih (fun e he => hres e (List.mem_cons_of_mem a he)) h

/-- Running the tag enumeration with the list callback over any
sub-list of a fully resolvable reference store collects exactly the
spec's filtered short names after the already-collected prefix. -/
theorem foreach_tags_collect (full : Repo) (pattern : List Char) :
    ∀ (sub : List RefEntry) (acc : List (List Char)),
      (∀ e ∈ sub, e ∈ full.refdb) →
      (∀ e ∈ full.refdb, e.2.isSome) →
      git_reference_foreach_name sub (tags_cb full (tag_list_cb pattern)) acc
        = (0, acc ++ specTagList pattern sub) := by
  intro sub
  induction sub with
  | nil =>
    intro acc hsub hres
    simp [git_reference_foreach_name, specTagList]
  | cons e t ih =>
    intro acc hsub hres
    have hmem : e ∈ full.refdb := hsub e (List.mem_cons_self e t)
    have htail : ∀ x ∈ t, x ∈ full.refdb := fun x hx => hsub x (List.mem_cons_of_mem e hx)
    by_cases hp : refsTagsDir.isPrefixOf e.1
    · rcases refLookup_resolvable hres (refLookup_isSome_of_mem hmem) with ⟨o, ho⟩
      have hid : git_reference_name_to_id full.refdb e.1 = .ok o := by
        simp [git_reference_name_to_id, ho]
      have hcb : tags_cb full (tag_list_cb pattern) e.1 acc
          = tag_list_cb pattern e.1 o acc := by
        unfold tags_cb
        rw [if_neg (by simp [hp]), hid]
      by_cases hm : pattern = [] ∨ p_fnmatch pattern (e.1.drop refsTagsDir.length)
      · have hlc : tag_list_cb pattern e.1 o acc
            = (0, acc ++ [e.1.drop refsTagsDir.length]) := by
          unfold tag_list_cb
          rw [if_pos hm]
        unfold git_reference_foreach_name
        rw [hcb, hlc]
        rw [if_neg (by simp)]
        rw [ih (acc ++ [e.1.drop refsTagsDir.length]) htail hres]
        simp only [specTagList, List.filterMap_cons, if_pos (And.intro hp hm)]
        simp [specTagList]
      · have hlc : tag_list_cb pattern e.1 o acc = (0, acc) := by
          unfold tag_list_cb
          rw [if_neg hm]
        unfold git_reference_foreach_name
        rw [hcb, hlc]
        rw [if_neg (by simp)]
        rw [ih acc htail hres]
        have hcond : ¬(refsTagsDir.isPrefixOf e.1 = true
            ∧ (pattern = [] ∨ p_fnmatch pattern (e.1.drop refsTagsDir.length) = true)) := by
          rintro ⟨-, hc⟩
          exact hm (by simpa using hc)
        simp only [specTagList, List.filterMap_cons, if_neg hcond]
    · have hcb : tags_cb full (tag_list_cb pattern) e.1 acc = (0, acc) := by
        unfold tags_cb
        rw [if_pos (by simp [hp])]
      unfold git_reference_foreach_name
      rw [hcb]
      rw [if_neg (by simp)]
      rw [ih acc htail hres]
      have hcond : ¬(refsTagsDir.isPrefixOf e.1 = true
          ∧ (pattern = [] ∨ p_fnmatch pattern (e.1.drop refsTagsDir.length) = true)) := by
        rintro ⟨hc, -⟩
        exact hp hc
      simp only [specTagList, List.filterMap_cons, if_neg hcond]

/-- C8: over any reference store whose entries all resolve, `list`
(`git_tag_list_match`, and `git_tag_list` for the empty pattern)
returns exactly the short names of the references in the tags
namespace — all of them for the empty pattern, and precisely those
whose stripped name the shell-style glob accepts otherwise; references
outside `refs/tags/` never appear. -/
theorem C8_glob_filter (repo : Repo) (pattern : List Char)
    (hres : ∀ e ∈ repo.refdb, e.2.isSome) :
    git_tag_list_match repo pattern = (0, specTagList pattern repo.refdb)
    ∧ git_tag_list repo = (0, specTagList [] repo.refdb) := by
  constructor
  · unfold git_tag_list_match git_tag_foreach
    rw [foreach_tags_collect repo pattern repo.refdb [] (fun e he => he) hres]
    simp
  · unfold git_tag_list git_tag_list_match git_tag_foreach
    rw [foreach_tags_collect repo [] repo.refdb [] (fun e he => he) hres]
    simp

/-- A fixture store with two tags (one dotted) and a branch head. -/
def repoTags : Repo where
  rid := 0
  odb := []
  refdb := [(refsTagsDir ++ ['v', '1', '.', '0'], some ['a']),
            (refsTagsDir ++ ['x'], some ['b']),
            (['r', 'e', 'f', 's', '/', 'h', 'e', 'a', 'd', 's', '/', 'm'], some ['c'])]

theorem C8_glob_filter_witness :
    (∀ e ∈ repoTags.refdb, e.2.isSome)
    ∧ git_tag_list_match repoTags ['v', '1', '.', '*'] = (0, [['v', '1', '.', '0']])
    ∧ git_tag_list repoTags = (0, [['v', '1', '.', '0'], ['x']]) := by
  have h := C8_glob_filter repoTags ['v', '1', '.', '*'] (by decide)
  refine ⟨by decide, ?_, ?_⟩
  · rw [h.1]; decide
  · rw [h.2]; decide

end Tag

